import Mathlib

/- Shallow embedding of the organization-extraction pipeline of the `work`
   repository (a university student-organization scraper).  Python sources:
   src/comprehensive_university_scraper.py, src/enhanced_scraper.py,
   src/scrape_universities_91_100.py, src/enhance_organization_detection.py.
   Machine strings are modelled as Lean strings via their character lists;
   regular-expression scans are modelled by an explicit leftmost-greedy
   backtracking matcher over the concrete patterns appearing in the code. -/

namespace Scraper

/-- Python `str.lower` (ASCII case mapping, which is all the scraped names use). -/
def lowerStr (s : String) : String := (s.toList.map Char.toLower).asString

/-- Python `str.strip()`: drop whitespace from both ends. -/
def stripStr (s : String) : String :=
  (((s.toList.dropWhile Char.isWhitespace).reverse.dropWhile Char.isWhitespace).reverse).asString

/-- Python substring test `needle in hay`, over character lists. -/
def hasSub (needle : List Char) : List Char → Bool
  | [] => needle.isEmpty
  | c :: rest => needle.isPrefixOf (c :: rest) || hasSub needle rest

/-- Python `needle in hay` on strings. -/
def strHasSub (hay needle : String) : Bool := hasSub needle.toList hay.toList

/-- Helper for `wordCount`: count maximal non-whitespace runs. -/
def wordCountGo : Bool → List Char → Nat
  | _, [] => 0
  | inWord, c :: rest =>
    if c.isWhitespace then wordCountGo false rest
    else (if inWord then 0 else 1) + wordCountGo true rest

/-- Python `len(s.split())`: the number of whitespace-separated words. -/
def wordCount (s : String) : Nat := wordCountGo false s.toList

/-- Python `s.isdigit()` for the ASCII digits used here. -/
def isDigitStr (s : String) : Bool := !s.toList.isEmpty && s.toList.all Char.isDigit

/-- Python `s.split(c)` over characters: split at every occurrence, keeping empties. -/
def splitOnChar (c : Char) : List Char → List (List Char)
  | [] => [[]]
  | d :: rest =>
    if d == c then [] :: splitOnChar c rest
    else
      match splitOnChar c rest with
      | [] => [[d]]
      | g :: gs => (d :: g) :: gs

/-- Python `s.replace(needle, repl)` (all occurrences, left to right); the fuel
argument is the number of characters of the subject still to be scanned. -/
def replAll (needle repl : List Char) : Nat → List Char → List Char
  | 0, l => l
  | _ + 1, [] => []
  | fuel + 1, c :: rest =>
    if needle ≠ [] ∧ needle.isPrefixOf (c :: rest) then
      repl ++ replAll needle repl fuel ((c :: rest).drop needle.length)
    else c :: replAll needle repl fuel rest

/-- Python `s.replace(needle, repl)` on strings. -/
def replaceAllStr (s needle repl : String) : String :=
  (replAll needle.toList repl.toList (s.toList.length + 1) s.toList).asString

/- ------------------------------------------------------------------ -/
/- Name predicate: `_is_likely_organization_name`,
   src/comprehensive_university_scraper.py lines 584-610.               -/

/-- The `skip_terms` disallow-list of `_is_likely_organization_name`
(src/comprehensive_university_scraper.py). -/
def skipTerms : List String :=
  ["home", "about", "contact", "login", "search", "menu", "navigation", "footer", "header", "sidebar",
   "main", "content", "page", "site", "copyright", "privacy", "terms", "policy", "back to top",
   "skip to", "click here", "read more", "learn more", "see more", "view all", "show all",
   "campus", "university", "college", "school", "education", "academic", "student services"]

/-- The `org_indicators` keyword list of `_is_likely_organization_name`
(src/comprehensive_university_scraper.py). -/
def orgIndicators : List String :=
  ["club", "society", "association", "organization", "group", "team", "council", "committee",
   "union", "fraternity", "sorority", "honor", "student", "academic", "professional",
   "service", "volunteer", "honor society", "student government"]

/-- `_is_likely_organization_name(text)` of src/comprehensive_university_scraper.py:
reject on length outside [3, 300], reject on any disallow-list term occurring in
the lowered stripped text, reject pure digit strings, then accept on an
organization-indicator keyword or a word count in [2, 12]. -/
def isLikelyOrganizationName (text : String) : Bool :=
  if text.toList.length < 3 || text.toList.length > 300 then false
  else if skipTerms.any (fun t => strHasSub (stripStr (lowerStr text)) t) then false
  else if isDigitStr text || wordCount text < 1 then false
  else orgIndicators.any (fun t => strHasSub (stripStr (lowerStr text)) t) ||
    (decide (2 ≤ wordCount text) && decide (wordCount text ≤ 12))

/-- The `skip_terms` list of the `_is_likely_organization_name` variant in
src/scrape_universities_91_100.py. -/
def skipTerms91 : List String :=
  ["home", "about", "contact", "login", "search", "menu", "navigation",
   "footer", "header", "sidebar", "main", "content", "page", "site",
   "copyright", "privacy", "terms", "policy", "back to top", "skip to",
   "student life", "campus", "university", "college", "school"]

/-- The `org_indicators` list of the src/scrape_universities_91_100.py variant. -/
def orgIndicators91 : List String :=
  ["club", "society", "association", "organization", "group", "team",
   "council", "committee", "union", "fraternity", "sorority", "honor",
   "student", "academic", "professional", "service", "volunteer"]

/-- `_is_likely_organization_name(text)` of src/scrape_universities_91_100.py
(length bound 200, no strip before the disallow check, word count bound 8). -/
def isLikelyOrganizationName91 (text : String) : Bool :=
  if text.toList.length < 3 || text.toList.length > 200 then false
  else if skipTerms91.any (fun t => strHasSub (lowerStr text) t) then false
  else orgIndicators91.any (fun t => strHasSub (lowerStr text) t) ||
    (decide (2 ≤ wordCount text) && decide (wordCount text ≤ 8))

/- ------------------------------------------------------------------ -/
/- Category classifier: `_determine_category`,
   src/comprehensive_university_scraper.py lines 629-650.               -/

/-- The `category_keywords` table of `_determine_category`, in source order
(Python dicts preserve insertion order). -/
def categoryKeywords : List (String × List String) :=
  [("Academic", ["academic", "honor society", "honor", "scholarship", "study", "research",
     "education", "phi theta kappa", "national honor", "dean\x27s list"]),
   ("Arts", ["art", "music", "theater", "theatre", "dance", "creative", "band", "choir",
     "drama", "visual", "performing"]),
   ("Athletics", ["sport", "athletic", "team", "recreation", "fitness", "basketball",
     "football", "soccer", "baseball", "volleyball"]),
   ("Cultural", ["cultural", "international", "heritage", "ethnic", "diversity",
     "multicultural", "african american", "hispanic", "asian"]),
   ("Greek Life", ["fraternity", "sorority", "greek", "alpha", "beta", "gamma", "delta",
     "theta", "phi", "sigma"]),
   ("Professional", ["professional", "career", "business", "engineering", "medical", "law",
     "nursing", "education", "technology"]),
   ("Religious", ["christian", "muslim", "jewish", "faith", "religious", "ministry",
     "chapel", "church", "bible", "spiritual"]),
   ("Service", ["service", "volunteer", "community", "outreach", "charity", "help",
     "support", "humanitarian", "social service"]),
   ("Student Government", ["student government", "sga", "student association",
     "student council", "government", "leadership"]),
   ("Special Interest", ["gaming", "anime", "technology", "computer", "environment",
     "outdoor", "photography", "cooking", "debate"])]

/-- The eleven category labels the spec fixes (the ten table labels plus the
default "General"). -/
def categoryLabels : List String :=
  ["Academic", "Arts", "Athletics", "Cultural", "Greek Life", "Professional",
   "Religious", "Service", "Student Government", "Special Interest", "General"]

/-- `_determine_category(name, description)`: lower-case the concatenation, return
the first table entry one of whose keywords occurs, else "General". -/
def determineCategory (name description : String) : String :=
  match categoryKeywords.find?
      (fun p => p.2.any (fun kw => strHasSub (lowerStr (name ++ " " ++ description)) kw)) with
  | some p => p.1
  | none => "General"

/- ------------------------------------------------------------------ -/
/- Records and the deduplicator, src/comprehensive_university_scraper.py
   lines 137-153 (and the identical loop of save_enhanced_data,
   src/enhance_organization_detection.py lines 439-449).                -/

/-- One organization record: the 13 string fields of the Python dict, in the
source order of `_extract_organization_details`. -/
structure OrgRec where
  category : String
  name : String
  link : String
  logo : String
  description : String
  email : String
  phone : String
  linkedin : String
  instagram : String
  facebook : String
  twitter : String
  youtube : String
  tiktok : String
deriving DecidableEq

/-- A record carrying only a name, all other fields empty. -/
def mkRec (n : String) : OrgRec :=
  ⟨"", n, "", "", "", "", "", "", "", "", "", "", ""⟩

/-- The dedup key: `org.get('Organization Name', '').strip().lower()`. -/
def normName (r : OrgRec) : String := lowerStr (stripStr r.name)

/-- The record output of the dedup loop: keep a record when its normalized name
is non-empty and not yet in `seen`, else drop it whole. -/
def dedupRecs : List String → List OrgRec → List OrgRec
  | _, [] => []
  | seen, r :: rs =>
    if normName r ≠ "" ∧ normName r ∉ seen then r :: dedupRecs (normName r :: seen) rs
    else dedupRecs seen rs

/-- The `seen_names` set after the dedup loop (modelled as a list; only
membership is ever used). -/
def seenAfter : List String → List OrgRec → List String
  | seen, [] => seen
  | seen, r :: rs =>
    if normName r ≠ "" ∧ normName r ∉ seen then seenAfter (normName r :: seen) rs
    else seenAfter seen rs

/-- The deduplicator run from an empty `seen_names` set. -/
def dedup (rs : List OrgRec) : List OrgRec := dedupRecs [] rs

/- ------------------------------------------------------------------ -/
/- Raw-text fallback `_extract_from_general_content`
   (src/comprehensive_university_scraper.py lines 248-275) and the
   orchestrator `extract_organizations_from_page` (lines 113-156).      -/

/-- The record built for one accepted raw text line. -/
def generalRec (baseUrl line : String) : OrgRec :=
  ⟨determineCategory line "", line, baseUrl, "", "", "", "", "", "", "", "", "", ""⟩

/-- `_extract_from_general_content`: split the visible text into stripped
non-empty lines, keep lines that pass the name predicate and are shorter than
150 characters, build bare records, and cap the result at 50. -/
def extractFromGeneralContent (textContent baseUrl : String) : List OrgRec :=
  ((((splitOnChar '\n' textContent.toList).map (fun l => stripStr l.asString)).filter
      (fun l => l ≠ "")).filter
      (fun l => isLikelyOrganizationName l && decide (l.toList.length < 150))).map
    (generalRec baseUrl) |>.take 50

/-- The inputs the orchestrator combines: the candidate records each strategy
would yield on the page (strategies 1-4), plus the page text and base URL used
by the raw-text fallback. -/
structure StrategyOutputs where
  s1 : List OrgRec
  s2 : List OrgRec
  s3 : List OrgRec
  s4 : List OrgRec
  textContent : String
  baseUrl : String
deriving DecidableEq

/-- Accumulated candidates after the strategy-2 gate
(`if len(organizations) < expected_count * 0.5`).  The float comparison
`len < e * 0.5` is the exact integer comparison `2 * len < e`. -/
def afterStep2 (so : StrategyOutputs) (e : Nat) : List OrgRec :=
  if 2 * so.s1.length < e then so.s1 ++ so.s2 else so.s1

/-- Accumulated candidates after the strategy-3 gate (same 50% threshold). -/
def afterStep3 (so : StrategyOutputs) (e : Nat) : List OrgRec :=
  if 2 * (afterStep2 so e).length < e then afterStep2 so e ++ so.s3 else afterStep2 so e

/-- Accumulated candidates after the strategy-4 gate
(`if len(organizations) < expected_count * 0.3`).  For the magnitudes the
scraper uses, `len < e * 0.3` under binary64 arithmetic coincides with the
exact integer comparison `10 * len < 3 * e`. -/
def afterStep4 (so : StrategyOutputs) (e : Nat) : List OrgRec :=
  if 10 * (afterStep3 so e).length < 3 * e then afterStep3 so e ++ so.s4 else afterStep3 so e

/-- `extract_organizations_from_page`: run the gated cascade, dedup by
normalized name, and append the (dedup-filtered, same `seen_names` set)
raw-text fallback only when the unique count is below 30% of the expectation. -/
def extractOrganizationsFromPage (so : StrategyOutputs) (e : Nat) : List OrgRec :=
  if 10 * (dedupRecs [] (afterStep4 so e)).length < 3 * e then
    dedupRecs [] (afterStep4 so e) ++
      dedupRecs (seenAfter [] (afterStep4 so e))
        (extractFromGeneralContent so.textContent so.baseUrl)
  else dedupRecs [] (afterStep4 so e)

/-- Replace strategies 2-4 by empty outputs (no extra candidates). -/
def clearLate (so : StrategyOutputs) : StrategyOutputs :=
  ⟨so.s1, [], [], [], so.textContent, so.baseUrl⟩

/-- Replace strategy 4 by an empty output. -/
def clearS4 (so : StrategyOutputs) : StrategyOutputs :=
  ⟨so.s1, so.s2, so.s3, [], so.textContent, so.baseUrl⟩

/-- Step 2 of the cascade as the specification words it: gate on the UNIQUE
accumulated count, threshold 50% of the expectation. -/
def claimStep2 (so : StrategyOutputs) (e : Nat) : List OrgRec :=
  if 2 * (dedup so.s1).length < e then so.s1 ++ so.s2 else so.s1

/-- Step 3 of the cascade as the specification words it (50% threshold). -/
def claimStep3 (so : StrategyOutputs) (e : Nat) : List OrgRec :=
  if 2 * (dedup (claimStep2 so e)).length < e then claimStep2 so e ++ so.s3
  else claimStep2 so e

/-- Step 4 of the cascade as the specification words it: the linked-page
strategy runs while the unique count is below 70% of the expectation. -/
def claimStep4 (so : StrategyOutputs) (e : Nat) : List OrgRec :=
  if 10 * (dedup (claimStep3 so e)).length < 7 * e then claimStep3 so e ++ so.s4
  else claimStep3 so e

/-- The whole cascade as the specification words it, for comparison with the
code: thresholds 50%, 50%, 70% and then the 30% raw-text fallback. -/
def claimCascade (so : StrategyOutputs) (e : Nat) : List OrgRec :=
  if 10 * (dedupRecs [] (claimStep4 so e)).length < 3 * e then
    dedupRecs [] (claimStep4 so e) ++
      dedupRecs (seenAfter [] (claimStep4 so e))
        (extractFromGeneralContent so.textContent so.baseUrl)
  else dedupRecs [] (claimStep4 so e)

/- ------------------------------------------------------------------ -/
/- A leftmost-greedy backtracking matcher for the concrete regular
   expressions of the contact extractors.  Every pattern in the code is a
   plain concatenation of single-character classes with counted greedy
   repetition, literal substrings and word-boundary assertions, so the
   items below cover them exactly.                                      -/

/-- Word character for the `\b` assertion: letters, digits, underscore. -/
def isWordChar (c : Char) : Bool := c.isAlphanum || c == '_'

/-- A word boundary holds between two (optional) characters when exactly one
side is a word character; a missing side counts as non-word. -/
def boundaryAt (prev next : Option Char) : Bool :=
  (match prev with | some c => isWordChar c | none => false) !=
  (match next with | some c => isWordChar c | none => false)

/-- One item of a concatenation pattern: a counted greedy character-class
repetition `rep lo hi p` (`hi = none` is unbounded), a literal substring
(compared case-insensitively, matching the `re.IGNORECASE` email patterns),
or a word boundary. -/
inductive RItem where
  | rep (lo : Nat) (hi : Option Nat) (p : Char → Bool)
  | lits (s : List Char)
  | wb

/-- First defined value in a list of options. -/
def firstSome {α : Type} : List (Option α) → Option α
  | [] => none
  | o :: rest => match o with | some a => some a | none => firstSome rest

/-- Length of the maximal run of class characters at the head of the input. -/
def runLen (p : Char → Bool) (l : List Char) : Nat := (l.takeWhile p).length

/-- Case-insensitive literal prefix test (the email patterns carry
`re.IGNORECASE`; the phone patterns contain no letters, so this is exact). -/
def litsHere : List Char → List Char → Bool
  | [], _ => true
  | _ :: _, [] => false
  | a :: as, b :: bs => (a.toLower == b.toLower) && litsHere as bs

/-- The previous character after consuming `consumed`, for later boundary
checks. -/
def lastOrPrev (consumed : List Char) (prev : Option Char) : Option Char :=
  match consumed.getLast? with
  | some c => some c
  | none => prev

/-- Match a concatenation of items at the start of `rest` (with `prev` the
character just before it), returning the consumed characters and the
remainder.  Greedy repetition backtracks from the longest run downwards,
exactly as the Python `re` engine does on these patterns. -/
def matchItems : List RItem → Option Char → List Char → Option (List Char × List Char)
  | [], _, rest => some ([], rest)
  | RItem.wb :: its, prev, rest =>
    if boundaryAt prev rest.head? then matchItems its prev rest else none
  | RItem.lits s :: its, prev, rest =>
    if litsHere s rest then
      (matchItems its (lastOrPrev (rest.take s.length) prev) (rest.drop s.length)).map
        (fun pr => (rest.take s.length ++ pr.1, pr.2))
    else none
  | RItem.rep lo hi p :: its, prev, rest =>
    firstSome (((List.range ((match hi with
        | none => runLen p rest
        | some h => min (runLen p rest) h) + 1 - lo)).map
        (fun i => (match hi with
          | none => runLen p rest
          | some h => min (runLen p rest) h) - i)).map
      (fun k =>
        (matchItems its (lastOrPrev (rest.take k) prev) (rest.drop k)).map
          (fun pr => (rest.take k ++ pr.1, pr.2))))

/-- All non-overlapping matches, scanning left to right: Python `re.findall`.
The fuel is the number of scan positions left (one more than the characters). -/
def scanAll (pat : List RItem) : Nat → Option Char → List Char → List (List Char)
  | 0, _, _ => []
  | _ + 1, prev, [] =>
    (match matchItems pat prev [] with
     | some (m, _) => [m]
     | none => [])
  | fuel + 1, prev, c :: rest =>
    match matchItems pat prev (c :: rest) with
    | some (m, r) =>
      if m.isEmpty then m :: scanAll pat fuel (some c) rest
      else m :: scanAll pat fuel (lastOrPrev m prev) r
    | none => scanAll pat fuel (some c) rest

/-- `re.findall(pattern, s)` for the patterns of the contact extractors. -/
def refindall (pat : List RItem) (s : String) : List String :=
  (scanAll pat (s.toList.length + 1) none s.toList).map List.asString

/-- Exactly `n` repetitions of a class. -/
def rX (n : Nat) (p : Char → Bool) : RItem := RItem.rep n (some n) p

/-- An optional single class character (`?`, greedy). -/
def rOpt (p : Char → Bool) : RItem := RItem.rep 0 (some 1) p

/-- One or more class characters (`+`, greedy). -/
def rPlus (p : Char → Bool) : RItem := RItem.rep 1 none p

/-- Zero or more class characters (`*`, greedy). -/
def rStar (p : Char → Bool) : RItem := RItem.rep 0 none p

/-- Two or more class characters (`{2,}`, greedy). -/
def r2Plus (p : Char → Bool) : RItem := RItem.rep 2 none p

/- ------------------------------------------------------------------ -/
/- Phone extraction: `_extract_phone_from_text`,
   src/comprehensive_university_scraper.py lines 564-582, and
   `format_phone`, src/enhanced_scraper.py lines 339-346.               -/

/-- The separator class `[-.\s]` of the phone patterns. -/
def isSepCh (c : Char) : Bool := c == '-' || c == '.' || c.isWhitespace

/-- Python `re.sub(r'[^\d]', '', s)` restricted to the digits kept. -/
def digitsOf (s : String) : List Char := s.toList.filter Char.isDigit

/-- Phone pattern 1: standard US format. -/
def phonePat1 : List RItem :=
  [rOpt (fun c => c == '('), rX 3 Char.isDigit, rOpt (fun c => c == ')'),
   rOpt isSepCh, rX 3 Char.isDigit, rOpt isSepCh, rX 4 Char.isDigit]

/-- Phone pattern 2: US format with optional country code. -/
def phonePat2 : List RItem :=
  [rOpt (fun c => c == '+'), rOpt (fun c => c == '1'), rOpt isSepCh,
   rOpt (fun c => c == '('), rX 3 Char.isDigit, rOpt (fun c => c == ')'),
   rOpt isSepCh, rX 3 Char.isDigit, rOpt isSepCh, rX 4 Char.isDigit]

/-- Phone pattern 3: simple format. -/
def phonePat3 : List RItem :=
  [rX 3 Char.isDigit, rOpt isSepCh, rX 3 Char.isDigit, rOpt isSepCh, rX 4 Char.isDigit]

/-- Phone pattern 4: dot separated. -/
def phonePat4 : List RItem :=
  [rX 3 Char.isDigit, rX 1 (fun c => c == '.'), rX 3 Char.isDigit,
   rX 1 (fun c => c == '.'), rX 4 Char.isDigit]

/-- Phone pattern 5: bare ten digits. -/
def phonePat5 : List RItem := [rX 10 Char.isDigit]

/-- The five phone patterns, in cascade order. -/
def phonePatterns : List (List RItem) :=
  [phonePat1, phonePat2, phonePat3, phonePat4, phonePat5]

/-- The pattern loop of `_extract_phone_from_text`: for each pattern in order,
take its first match; if that match strips to exactly 10 digits return it
as matched, otherwise move to the next pattern; return "" when none fits. -/
def phoneGo : List (List RItem) → String → String
  | [], _ => ""
  | p :: ps, text =>
    match refindall p text with
    | [] => phoneGo ps text
    | m :: _ =>
      if (digitsOf (stripStr m)).length = 10 then stripStr m else phoneGo ps text

/-- `_extract_phone_from_text(text)` of src/comprehensive_university_scraper.py. -/
def extractPhoneFromText (text : String) : String := phoneGo phonePatterns text

/-- The f-string `({digits[:3]}) {digits[3:6]}-{digits[6:]}`. -/
def fmt10 (d : List Char) : String :=
  ('(' :: d.take 3 ++ [')', ' '] ++ (d.drop 3).take 3 ++ ['-'] ++ d.drop 6).asString

/-- `format_phone(phone)` of src/enhanced_scraper.py: strip non-digits; format
10 digits, or 11 digits starting with 1, to `(XXX) XXX-XXXX`; otherwise return
the input unchanged. -/
def formatPhone (phone : String) : String :=
  if (digitsOf phone).length = 10 then fmt10 (digitsOf phone)
  else if (digitsOf phone).length = 11 ∧ (digitsOf phone).head? = some '1' then
    fmt10 ((digitsOf phone).drop 1)
  else phone

/-- The canonical shape `(XXX) XXX-XXXX` the specification asserts for every
non-empty phone result; written from the spec words, for comparison. -/
def specCanonicalPhone (s : String) : Bool :=
  match s.toList with
  | ['(', a, b, c, ')', ' ', d, e, f, '-', g, h, i, j] =>
    [a, b, c, d, e, f, g, h, i, j].all Char.isDigit
  | _ => false

/- ------------------------------------------------------------------ -/
/- Email extraction: `_extract_email_from_text`,
   src/comprehensive_university_scraper.py lines 521-556, and
   `extract_enhanced_email`, src/enhanced_scraper.py lines 175-206.     -/

/-- The local-part class `[A-Za-z0-9._%+-]`. -/
def isLocalCh (c : Char) : Bool :=
  c.isAlphanum || c == '.' || c == '_' || c == '%' || c == '+' || c == '-'

/-- The domain class `[A-Za-z0-9.-]`. -/
def isDomainCh (c : Char) : Bool := c.isAlphanum || c == '.' || c == '-'

/-- The top-level-domain class `[A-Z|a-z]` (the class literally contains the
bar character, as written in the source). -/
def isTldBarCh (c : Char) : Bool := c.isAlpha || c == '|'

/-- Email pattern 1: the standard form
`\b[A-Za-z0-9._%+-]+@[A-Za-z0-9.-]+\.[A-Z|a-z]{2,}\b`. -/
def emailPat1 : List RItem :=
  [RItem.wb, rPlus isLocalCh, rX 1 (fun c => c == '@'), rPlus isDomainCh,
   rX 1 (fun c => c == '.'), r2Plus isTldBarCh, RItem.wb]

/-- Email pattern 2: the `[at]`/`[dot]`-obfuscated form. -/
def emailPat2 : List RItem :=
  [RItem.wb, rPlus isLocalCh, rStar Char.isWhitespace, RItem.lits "[at]".toList,
   rStar Char.isWhitespace, rPlus isDomainCh, rStar Char.isWhitespace,
   RItem.lits "[dot]".toList, rStar Char.isWhitespace, r2Plus Char.isAlpha, RItem.wb]

/-- Email pattern 3: the spaced-out form
`\b[A-Za-z0-9._%+-]+\s*@\s*[A-Za-z0-9.-]+\s*\.\s*[A-Za-z]{2,}\b`. -/
def emailPat3 : List RItem :=
  [RItem.wb, rPlus isLocalCh, rStar Char.isWhitespace, rX 1 (fun c => c == '@'),
   rStar Char.isWhitespace, rPlus isDomainCh, rStar Char.isWhitespace,
   rX 1 (fun c => c == '.'), rStar Char.isWhitespace, r2Plus Char.isAlpha, RItem.wb]

/-- The three email patterns, in source order. -/
def emailPatterns : List (List RItem) := [emailPat1, emailPat2, emailPat3]

/-- The clean-up `email.replace('[at]','@').replace('[dot]','.').replace(' ','')`. -/
def cleanEmail (e : String) : String :=
  replaceAllStr (replaceAllStr (replaceAllStr e "[at]" "@") "[dot]" ".") " " ""

/-- All pattern matches over all three patterns, in pattern order, cleaned. -/
def allEmailMatches (text : String) : List String :=
  ((emailPatterns.map (fun p => refindall p text)).flatten).map cleanEmail

/-- The `skip_patterns` blacklist of `_extract_email_from_text`. -/
def emailSkips : List String :=
  ["noreply", "webmaster", "admin@university", "support@university", "info@example"]

/-- The organization-token list used to promote addresses. -/
def emailOrgTokens : List String := ["student", "club", "org", "group", "society"]

/-- Whether an address contains a blacklisted substring (checked lower-cased). -/
def isSkippedEmail (e : String) : Bool :=
  emailSkips.any (fun t => strHasSub (lowerStr e) t)

/-- Whether an address contains an organization token (checked lower-cased,
over the WHOLE address, as the code does). -/
def hasOrgToken (e : String) : Bool :=
  emailOrgTokens.any (fun t => strHasSub (lowerStr e) t)

/-- One step of the prioritizing loop: drop blacklisted addresses, insert
organization-token addresses at position 0, append the rest. -/
def emailFold (acc : List String) (e : String) : List String :=
  if isSkippedEmail e then acc
  else if hasOrgToken e then e :: acc
  else acc ++ [e]

/-- `_extract_email_from_text(text)` of src/comprehensive_university_scraper.py:
collect and clean all matches, run the prioritizing loop, return the head. -/
def extractEmailFromText (text : String) : String :=
  ((allEmailMatches text).foldl emailFold []).headD ""

/-- Local part of an address: the characters before the first `@`.  Used only
by the spec-worded comparison definition below. -/
def localPartOf (e : String) : String := (e.toList.takeWhile (fun c => c != '@')).asString

/-- The blacklist exactly as the claim words it. -/
def specEmailSkips : List String := ["noreply", "webmaster", "admin@", "info@example"]

/-- The email rule exactly as the claim words it, for comparison with the code:
drop matches containing a blacklisted local-part, promote survivors whose
LOCAL PART contains an organization token ahead of the generic survivors
(keeping discovery order inside each class), return the first survivor. -/
def specEmailExtract (text : String) : String :=
  (((allEmailMatches text).filter
      (fun e => !specEmailSkips.any (fun t => strHasSub (lowerStr e) t))).filter
      (fun e => emailOrgTokens.any (fun t => strHasSub (lowerStr (localPartOf e)) t)) ++
   ((allEmailMatches text).filter
      (fun e => !specEmailSkips.any (fun t => strHasSub (lowerStr e) t))).filter
      (fun e => !emailOrgTokens.any (fun t => strHasSub (lowerStr (localPartOf e)) t))).headD ""

/- ------------------------------------------------------------------ -/
/- `is_valid_email` and the mailto handling of `extract_enhanced_email`
   (src/enhanced_scraper.py lines 175-206 and 335-338).                 -/

/-- Tail of the anchored domain part `[A-Za-z0-9.-]+\.[A-Z|a-z]{2,}$` after at
least one domain character: either the literal dot followed by a 2+ letter
top-level domain reaching the end, or one more domain character. -/
def vDomTail : List Char → Bool
  | [] => false
  | c :: rest =>
    (c == '.' && (decide (2 ≤ rest.length) && rest.all isTldBarCh)) ||
    (isDomainCh c && vDomTail rest)

/-- The anchored domain part: at least one domain character, then `vDomTail`. -/
def vDomain : List Char → Bool
  | [] => false
  | c :: rest => isDomainCh c && vDomTail rest

/-- The anchored local part after its first character: local characters up to
the `@`, then the domain. -/
def vLocalTail : List Char → Bool
  | [] => false
  | c :: rest => if c == '@' then vDomain rest else isLocalCh c && vLocalTail rest

/-- `is_valid_email(email)` of src/enhanced_scraper.py: full anchored match of
`^[A-Za-z0-9._%+-]+@[A-Za-z0-9.-]+\.[A-Z|a-z]{2,}$`. -/
def isValidEmail (s : String) : Bool :=
  match s.toList with
  | [] => false
  | c :: rest => isLocalCh c && vLocalTail rest

/-- Python `href.startswith('mailto:')`. -/
def isMailtoHref (h : String) : Bool := ("mailto:".toList).isPrefixOf h.toList

/-- `href.replace('mailto:', '').split('?')[0]`. -/
def mailtoAddr (href : String) : String :=
  ((replaceAllStr href "mailto:" "").toList.takeWhile (fun c => c != '?')).asString

/-- The mailto loop of `extract_enhanced_email`: the first document link whose
href starts with `mailto:` and whose stripped address validates. -/
def firstMailtoEmail (hrefs : List String) : Option String :=
  hrefs.findSome? (fun h =>
    if isMailtoHref h then
      (if isValidEmail (mailtoAddr h) then some (mailtoAddr h) else none)
    else none)

/-- The generic-address blacklist of `extract_enhanced_email`. -/
def enhancedGenericSkips : List String := ["noreply", "webmaster", "admin@university"]

/-- `extract_enhanced_email(page_text, soup)` of src/enhanced_scraper.py, with
the document reduced to its list of anchor hrefs: a valid mailto address wins;
otherwise the first cleaned pattern match that validates and is not generic. -/
def extractEnhancedEmail (hrefs : List String) (pageText : String) : String :=
  match firstMailtoEmail hrefs with
  | some e => e
  | none =>
    ((allEmailMatches pageText).find? (fun c =>
      isValidEmail c && !enhancedGenericSkips.any (fun t => strHasSub (lowerStr c) t))).getD ""

/- ================================================================== -/
/- Theorems.                                                           -/
/- ================================================================== -/

/-- Every record the dedup loop keeps has a non-empty normalized name that was
not in the incoming `seen` set. -/
theorem dedupRecs_mem_spec : ∀ (rs : List OrgRec) (seen : List String) (r : OrgRec),
    r ∈ dedupRecs seen rs → normName r ≠ "" ∧ normName r ∉ seen := by
  intro rs
  induction rs with
  | nil => intro seen r h; simp [dedupRecs] at h
  | cons x rs ih =>
    intro seen r h
    by_cases hx : normName x ≠ "" ∧ normName x ∉ seen
    · rw [dedupRecs, if_pos hx] at h
      rcases List.mem_cons.mp h with h1 | h2
      · subst h1; exact hx
      · have hspec := ih (normName x :: seen) r h2
        exact ⟨hspec.1, fun hs => hspec.2 (List.mem_cons_of_mem _ hs)⟩
    · rw [dedupRecs, if_neg hx] at h
      exact ih seen r h

/-- The dedup loop output has pairwise distinct normalized names. -/
theorem dedupRecs_pairwise : ∀ (rs : List OrgRec) (seen : List String),
    (dedupRecs seen rs).Pairwise (fun a b => normName a ≠ normName b) := by
  intro rs
  induction rs with
  | nil => intro seen; simp [dedupRecs]
  | cons x rs ih =>
    intro seen
    rw [dedupRecs]
    split
    · refine List.Pairwise.cons ?_ (ih _)
      intro r hr hEq
      exact (dedupRecs_mem_spec rs (normName x :: seen) r hr).2
        (hEq ▸ List.mem_cons_self _ _)
    · exact ih seen

/-- A list of records with fresh, pairwise distinct normalized names passes the
dedup loop unchanged. -/
theorem dedupRecs_of_fresh : ∀ (rs : List OrgRec) (seen : List String),
    (∀ r ∈ rs, normName r ≠ "" ∧ normName r ∉ seen) →
    rs.Pairwise (fun a b => normName a ≠ normName b) →
    dedupRecs seen rs = rs := by
  intro rs
  induction rs with
  | nil => intro seen _ _; rfl
  | cons x rs ih =>
    intro seen hfresh hpw
    have hx := hfresh x (List.mem_cons_self _ _)
    rw [dedupRecs, if_pos hx]
    congr 1
    apply ih
    · intro r hr
      obtain ⟨h1, h2⟩ := hfresh r (List.mem_cons_of_mem _ hr)
      refine ⟨h1, fun hmem => ?_⟩
      rcases List.mem_cons.mp hmem with he | hs
      · exact absurd he.symm ((List.pairwise_cons.mp hpw).1 r hr)
      · exact h2 hs
    · exact (List.pairwise_cons.mp hpw).2

/-- The dedup loop output is a sublist of the input (records are kept or
dropped whole, in input order). -/
theorem dedupRecs_sublist : ∀ (rs : List OrgRec) (seen : List String),
    (dedupRecs seen rs).Sublist rs := by
  intro rs
  induction rs with
  | nil => intro seen; simp [dedupRecs]
  | cons x rs ih =>
    intro seen
    rw [dedupRecs]
    split
    · exact List.Sublist.cons₂ x (ih _)
    · exact List.Sublist.cons x (ih _)

/-- Every kept record is the first input record bearing its normalized name. -/
theorem dedupRecs_find : ∀ (rs : List OrgRec) (seen : List String) (r : OrgRec),
    r ∈ dedupRecs seen rs →
    rs.find? (fun x => normName x == normName r) = some r := by
  intro rs
  induction rs with
  | nil => intro seen r h; simp [dedupRecs] at h
  | cons x rs ih =>
    intro seen r h
    by_cases hx : normName x ≠ "" ∧ normName x ∉ seen
    · rw [dedupRecs, if_pos hx] at h
      rcases List.mem_cons.mp h with h1 | h2
      · subst h1
        exact List.find?_cons_of_pos _ (by simp)
      · have hne : normName x ≠ normName r := by
          intro he
          exact (dedupRecs_mem_spec rs (normName x :: seen) r h2).2
            (he ▸ List.mem_cons_self _ _)
        rw [List.find?_cons_of_neg _ (by simpa using hne)]
        exact ih _ r h2
    · rw [dedupRecs, if_neg hx] at h
      have hspec := dedupRecs_mem_spec rs seen r h
      have hne : normName x ≠ normName r := by
        intro he
        rcases not_and_or.mp hx with h0 | h0
        · exact hspec.1 (he.symm.trans (not_not.mp h0))
        · exact hspec.2 (he ▸ not_not.mp h0)
      rw [List.find?_cons_of_neg _ (by simpa using hne)]
      exact ih seen r h

/-- C8: for every input list of records, the deduplicator output contains no
two records whose names agree after trimming and lowercasing — the normalized
name is a unique key of the final result set. -/
theorem claim8_unique_names (rs : List OrgRec) :
    (dedup rs).Pairwise (fun a b => normName a ≠ normName b) :=
  dedupRecs_pairwise rs []

/-- C9: the deduplicator is idempotent — applying it to its own output yields
that output again. -/
theorem claim9_dedup_idempotent (rs : List OrgRec) : dedup (dedup rs) = dedup rs := by
  apply dedupRecs_of_fresh
  · intro r hr
    exact ⟨(dedupRecs_mem_spec rs [] r hr).1, by simp⟩
  · exact dedupRecs_pairwise rs []

/-- C10: every output record of the deduplicator is an input record taken
whole — the first-discovered record of its normalized name — and output order
is first-discovery order (output is a sublist of the input); no record is ever
synthesized from fields of two inputs. -/
theorem claim10_output_from_input (rs : List OrgRec) :
    (dedup rs).Sublist rs ∧
    ∀ r ∈ dedup rs, rs.find? (fun x => normName x == normName r) = some r :=
  ⟨dedupRecs_sublist rs [], fun r hr => dedupRecs_find rs [] r hr⟩

/-- C10 witness: a concrete run with a case-insensitive duplicate. -/
theorem claim10_witness :
    (dedup [mkRec "Chess Club", mkRec "chess club", mkRec "Math Club"]).Sublist
      [mkRec "Chess Club", mkRec "chess club", mkRec "Math Club"] ∧
    [mkRec "Chess Club", mkRec "chess club", mkRec "Math Club"].find?
      (fun x => normName x == normName (mkRec "Chess Club")) = some (mkRec "Chess Club") :=
  ⟨(claim10_output_from_input [mkRec "Chess Club", mkRec "chess club", mkRec "Math Club"]).1,
   (claim10_output_from_input [mkRec "Chess Club", mkRec "chess club", mkRec "Math Club"]).2
     (mkRec "Chess Club") (by decide)⟩

/-- The first of the two C1 records: only the email field set. -/
def c1recA : OrgRec :=
  ⟨"", "Chess Club", "", "", "", "chess@bhsu.edu", "", "", "", "", "", "", ""⟩

/-- The second of the two C1 records: same name up to case, only the phone
field set. -/
def c1recB : OrgRec :=
  ⟨"", "chess club", "", "", "", "", "(605) 642-6420", "", "", "", "", "", ""⟩

/-- C1 counterexample: two equal-name records, the first with only an email and
the second with only a phone, do NOT merge field by field — the output is
exactly the first record, and no output record carries both contact fields. -/
theorem claim1_counterexample :
    dedup [c1recA, c1recB] = [c1recA] ∧
    (∀ r ∈ dedup [c1recA, c1recB],
      ¬(r.email = "chess@bhsu.edu" ∧ r.phone = "(605) 642-6420")) := by
  decide

/-- C1 amended: for each group of equal-name records the deduplicator keeps the
first record whole and drops the later ones whole; no field is merged in. -/
theorem claim1_merge_keeps_first_record (r1 r2 : OrgRec)
    (hn : normName r1 = normName r2) (hne : normName r1 ≠ "") :
    dedup [r1, r2] = [r1] := by
  have h2 : ¬ (normName r2 ≠ "" ∧ normName r2 ∉ [normName r1]) := by
    intro h; exact h.2 (by simp [hn])
  unfold dedup
  rw [dedupRecs, if_pos ⟨hne, by simp⟩, dedupRecs, if_neg h2, dedupRecs]

/-- C1 witness: the amended statement at the two concrete records. -/
theorem claim1_witness : dedup [c1recA, c1recB] = [c1recA] :=
  claim1_merge_keeps_first_record c1recA c1recB (by decide) (by decide)

/-- C3: the disallow-list filter comes first — any text containing a
disallow-list term (checked on the lowered text, as the code does) is rejected
by the entity-name predicate, regardless of any organization-indicator keyword
also present; this holds for both predicate variants in the repository. -/
theorem claim3_disallow_first (text : String) :
    ((∃ t ∈ skipTerms, strHasSub (stripStr (lowerStr text)) t = true) →
      isLikelyOrganizationName text = false) ∧
    ((∃ t ∈ skipTerms91, strHasSub (lowerStr text) t = true) →
      isLikelyOrganizationName91 text = false) := by
  constructor
  · intro h
    have hany : skipTerms.any (fun t => strHasSub (stripStr (lowerStr text)) t) = true := by
      rw [List.any_eq_true]
      obtain ⟨t, ht, hs⟩ := h
      exact ⟨t, ht, hs⟩
    simp [isLikelyOrganizationName, hany]
  · intro h
    have hany : skipTerms91.any (fun t => strHasSub (lowerStr text) t) = true := by
      rw [List.any_eq_true]
      obtain ⟨t, ht, hs⟩ := h
      exact ⟨t, ht, hs⟩
    simp [isLikelyOrganizationName91, hany]

/-- C3 witness: a text containing both the disallow term "home" and the
organization keyword "club" is rejected by both predicate variants. -/
theorem claim3_witness :
    ("home" ∈ skipTerms ∧ "club" ∈ orgIndicators ∧
      strHasSub (stripStr (lowerStr "Chess Club Homepage")) "club" = true) ∧
    isLikelyOrganizationName "Chess Club Homepage" = false ∧
    isLikelyOrganizationName91 "Chess Club Homepage" = false :=
  ⟨by decide,
   (claim3_disallow_first "Chess Club Homepage").1 ⟨"home", by decide, by decide⟩,
   (claim3_disallow_first "Chess Club Homepage").2 ⟨"home", by decide, by decide⟩⟩

/-- C4: the category classifier is total with values in the eleven fixed
labels, and returns "General" exactly when no keyword of any table entry
occurs in the lowered name-plus-description text. -/
theorem claim4_classifier_total (name description : String) :
    determineCategory name description ∈ categoryLabels ∧
    ((∀ p ∈ categoryKeywords, ∀ kw ∈ p.2,
        strHasSub (lowerStr (name ++ " " ++ description)) kw = false) →
      determineCategory name description = "General") := by
  have hall : ∀ q ∈ categoryKeywords, q.1 ∈ categoryLabels := by decide
  constructor
  · unfold determineCategory
    cases hf : List.find?
        (fun p => p.2.any (fun kw => strHasSub (lowerStr (name ++ " " ++ description)) kw))
        categoryKeywords with
    | none => show ("General" : String) ∈ categoryLabels; decide
    | some p => exact hall p (List.mem_of_find?_eq_some hf)
  · intro h
    have hnone : List.find?
        (fun p => p.2.any (fun kw => strHasSub (lowerStr (name ++ " " ++ description)) kw))
        categoryKeywords = none := by
      rw [List.find?_eq_none]
      intro p hp hcontra
      obtain ⟨kw, hkw, hsub⟩ := List.any_eq_true.mp hcontra
      rw [h p hp kw hkw] at hsub
      exact Bool.false_ne_true hsub
    unfold determineCategory
    rw [hnone]

/-- C4 witness: a name and description matching no keyword classify as
"General", which is one of the eleven labels. -/
theorem claim4_witness :
    determineCategory "zzzz" "" ∈ categoryLabels ∧
    determineCategory "zzzz" "" = "General" :=
  ⟨(claim4_classifier_total "zzzz" "").1,
   (claim4_classifier_total "zzzz" "").2 (by decide)⟩

/-- Step gates only ever add candidates: strategy 1 output is a lower bound. -/
theorem afterStep2_len (so : StrategyOutputs) (e : Nat) :
    so.s1.length ≤ (afterStep2 so e).length := by
  unfold afterStep2
  split <;> simp [List.length_append]

/-- Accumulated length after step 3 is also bounded below by strategy 1. -/
theorem afterStep3_len (so : StrategyOutputs) (e : Nat) :
    so.s1.length ≤ (afterStep3 so e).length := by
  have h2 := afterStep2_len so e
  unfold afterStep3
  split
  · simp [List.length_append]; omega
  · exact h2

/-- When strategy 1 already reaches 50% of the expectation, steps 2-4 are all
skipped and the accumulated candidates are exactly the strategy-1 output. -/
theorem afterStep4_of_half (so : StrategyOutputs) (e : Nat) (h : e ≤ 2 * so.s1.length) :
    afterStep4 so e = so.s1 := by
  have h2 : ¬ (2 * so.s1.length < e) := by omega
  have ha2 : afterStep2 so e = so.s1 := by unfold afterStep2; rw [if_neg h2]
  have ha3 : afterStep3 so e = so.s1 := by unfold afterStep3; rw [ha2, if_neg h2]
  unfold afterStep4
  rw [ha3, if_neg (show ¬ (10 * so.s1.length < 3 * e) by omega)]

/-- C2 amended: the cascade gates of `extract_organizations_from_page` are:
steps 2 and 3 run only while the accumulated candidates (with multiplicity)
are below 50% of `expectedCount`; step 4 (linked pages) runs only while they
are below 30% — not 70% as the spec says; the raw-text fallback runs only
while the deduplicated candidate count is below 30%; and the fallback output
is capped at 50 records. -/
theorem claim2_cascade_thresholds :
    (∀ (so : StrategyOutputs) (e : Nat), e ≤ 2 * so.s1.length →
      extractOrganizationsFromPage so e = extractOrganizationsFromPage (clearLate so) e) ∧
    (∀ (so : StrategyOutputs) (e : Nat), 3 * e ≤ 10 * so.s1.length →
      extractOrganizationsFromPage so e = extractOrganizationsFromPage (clearS4 so) e) ∧
    (∀ (so : StrategyOutputs) (e : Nat),
      3 * e ≤ 10 * (dedupRecs [] (afterStep4 so e)).length →
      extractOrganizationsFromPage so e = dedupRecs [] (afterStep4 so e)) ∧
    (∀ textContent baseUrl : String,
      (extractFromGeneralContent textContent baseUrl).length ≤ 50) := by
  refine ⟨?_, ?_, ?_, ?_⟩
  · intro so e h
    have hL : afterStep4 so e = so.s1 := afterStep4_of_half so e h
    have hR : afterStep4 (clearLate so) e = so.s1 :=
      afterStep4_of_half (clearLate so) e h
    unfold extractOrganizationsFromPage
    rw [hL, hR]
    rfl
  · intro so e h
    have h4 : ¬ (10 * (afterStep3 so e).length < 3 * e) := by
      have := afterStep3_len so e; omega
    have hL : afterStep4 so e = afterStep3 so e := by
      unfold afterStep4; rw [if_neg h4]
    have hR : afterStep4 (clearS4 so) e = afterStep3 so e := by
      unfold afterStep4
      show (if 10 * (afterStep3 so e).length < 3 * e
        then afterStep3 so e ++ (clearS4 so).s4 else afterStep3 so e) = afterStep3 so e
      rw [if_neg h4]
    unfold extractOrganizationsFromPage
    rw [hL, hR]
    rfl
  · intro so e h
    unfold extractOrganizationsFromPage
    rw [if_neg (show ¬ (10 * (dedupRecs [] (afterStep4 so e)).length < 3 * e) by omega)]
  · intro textContent baseUrl
    unfold extractFromGeneralContent
    simp [List.length_take]

/-- The concrete C2 scenario: strategy 1 finds 4 distinct candidates out of an
expectation of 10 (40%, below the claimed 70% gate but above the code's 30%
gate), and the linked-page strategy would contribute one more record. -/
def c2demo : StrategyOutputs :=
  ⟨[mkRec "A1", mkRec "A2", mkRec "A3", mkRec "A4"], [], [], [mkRec "B5"], "", ""⟩

/-- C2 counterexample: with unique candidates at 40% of `expectedCount`, the
spec-worded cascade (70% gate for step 4) keeps the linked-page record, but
the code does not run step 4 — its gate is 30% — so the two disagree. -/
theorem claim2_counterexample :
    mkRec "B5" ∈ claimCascade c2demo 10 ∧
    mkRec "B5" ∉ extractOrganizationsFromPage c2demo 10 ∧
    claimCascade c2demo 10 ≠ extractOrganizationsFromPage c2demo 10 := by
  decide

/-- C2 witness: the amended gate facts at concrete inputs. -/
theorem claim2_witness :
    extractOrganizationsFromPage c2demo 2 = extractOrganizationsFromPage (clearLate c2demo) 2 ∧
    extractOrganizationsFromPage c2demo 10 = extractOrganizationsFromPage (clearS4 c2demo) 10 ∧
    extractOrganizationsFromPage c2demo 10 = dedupRecs [] (afterStep4 c2demo 10) ∧
    (extractFromGeneralContent "Chess Club\nHome" "u").length ≤ 50 :=
  ⟨claim2_cascade_thresholds.1 c2demo 2 (by decide),
   claim2_cascade_thresholds.2.1 c2demo 10 (by decide),
   claim2_cascade_thresholds.2.2.1 c2demo 10 (by decide),
   claim2_cascade_thresholds.2.2.2 "Chess Club\nHome" "u"⟩

/-- Every non-empty result of the phone pattern loop strips to exactly 10
digits (the loop only returns a match after that check succeeds). -/
theorem phoneGo_spec : ∀ (pats : List (List RItem)) (text : String),
    phoneGo pats text = "" ∨ (digitsOf (phoneGo pats text)).length = 10 := by
  intro pats
  induction pats with
  | nil => intro text; left; rfl
  | cons p ps ih =>
    intro text
    rw [phoneGo]
    split
    · exact ih text
    · split
      · right; assumption
      · exact ih text

/-- Stripping the formatted string `(abc) def-ghij` back to digits recovers
the digit list it was built from. -/
theorem digitsOf_fmt10 (d : List Char) (hd : ∀ c ∈ d, c.isDigit = true) :
    digitsOf (fmt10 d) = d := by
  show List.filter Char.isDigit
    ('(' :: d.take 3 ++ [')', ' '] ++ (d.drop 3).take 3 ++ ['-'] ++ d.drop 6) = d
  have htake : ∀ l : List Char, l ⊆ d → List.filter Char.isDigit l = l := by
    intro l hl
    exact List.filter_eq_self.mpr (fun a ha => hd a (hl ha))
  rw [show ('(' :: d.take 3 ++ [')', ' '] ++ (d.drop 3).take 3 ++ ['-'] ++ d.drop 6) =
      '(' :: (d.take 3 ++ ([')', ' '] ++ ((d.drop 3).take 3 ++ (['-'] ++ d.drop 6)))) by
    simp [List.append_assoc]]
  rw [List.filter_cons_of_neg (by decide), List.filter_append, List.filter_append,
    List.filter_append, List.filter_append]
  rw [htake (d.take 3) (List.take_subset _ _),
    htake ((d.drop 3).take 3) (fun a ha => List.drop_subset _ _ (List.take_subset _ _ ha)),
    htake (d.drop 6) (List.drop_subset _ _)]
  rw [show List.filter Char.isDigit [')', ' '] = [] by decide,
    show List.filter Char.isDigit ['-'] = [] by decide]
  rw [List.nil_append, List.nil_append]
  rw [show d.drop 6 = (d.drop 3).drop 3 by rw [List.drop_drop]]
  rw [List.take_append_drop, List.take_append_drop]

/-- `format_phone` is idempotent: formatting an already formatted number
returns it unchanged. -/
theorem formatPhone_idem (p : String) : formatPhone (formatPhone p) = formatPhone p := by
  by_cases h1 : (digitsOf p).length = 10
  · have hd : ∀ c ∈ digitsOf p, c.isDigit = true := fun c hc => List.of_mem_filter hc
    have hfp : formatPhone p = fmt10 (digitsOf p) := by
      unfold formatPhone; rw [if_pos h1]
    rw [hfp]
    unfold formatPhone
    rw [digitsOf_fmt10 _ hd, if_pos h1]
  · by_cases h2 : (digitsOf p).length = 11 ∧ (digitsOf p).head? = some '1'
    · have hd : ∀ c ∈ (digitsOf p).drop 1, c.isDigit = true := fun c hc =>
        List.of_mem_filter (List.drop_subset _ _ hc)
      have hlen : ((digitsOf p).drop 1).length = 10 := by
        rw [List.length_drop]; omega
      have hfp : formatPhone p = fmt10 ((digitsOf p).drop 1) := by
        unfold formatPhone; rw [if_neg h1, if_pos h2]
      rw [hfp]
      unfold formatPhone
      rw [digitsOf_fmt10 _ hd, if_pos hlen]
    · have hfp : formatPhone p = p := by
        unfold formatPhone; rw [if_neg h1, if_neg h2]
      rw [hfp, hfp]

/-- C5 amended: the phone extractor returns its accepted match in the form it
was matched (10 digits after stripping, but not reformatted); the separate
`format_phone` helper produces the canonical form and is idempotent, so
formatting never double-applies. -/
theorem claim5_phone_matched_form :
    (∀ text : String, extractPhoneFromText text = "" ∨
      (digitsOf (extractPhoneFromText text)).length = 10) ∧
    (∀ p : String, formatPhone (formatPhone p) = formatPhone p) ∧
    extractPhoneFromText "Call 605.642.6420 now" = "605.642.6420" ∧
    formatPhone "605.642.6420" = "(605) 642-6420" :=
  ⟨fun text => phoneGo_spec phonePatterns text, formatPhone_idem, by decide, by decide⟩

/-- C5 counterexample: the extractor returns the dot-separated match verbatim,
which is non-empty and NOT in the canonical shape `(XXX) XXX-XXXX` the claim
asserts for every non-empty result. -/
theorem claim5_counterexample :
    extractPhoneFromText "Call 605.642.6420 now" ≠ "" ∧
    specCanonicalPhone (extractPhoneFromText "Call 605.642.6420 now") = false := by
  decide

/-- A value produced by the mailto loop always passes `is_valid_email`. -/
theorem firstMailtoEmail_valid : ∀ (hrefs : List String) (e : String),
    firstMailtoEmail hrefs = some e → isValidEmail e = true := by
  intro hrefs
  induction hrefs with
  | nil => intro e h; simp [firstMailtoEmail] at h
  | cons h0 hs ih =>
    intro e h
    rw [firstMailtoEmail, List.findSome?_cons] at h
    by_cases hm : isMailtoHref h0 = true
    · rw [if_pos hm] at h
      by_cases hv : isValidEmail (mailtoAddr h0) = true
      · rw [if_pos hv] at h
        simp only [] at h
        cases h
        exact hv
      · rw [if_neg hv] at h
        exact ih e h
    · rw [if_neg hm] at h
      exact ih e h

/-- When some document link is a mailto link with a valid address, the mailto
loop produces a value. -/
theorem firstMailtoEmail_isSome : ∀ (hrefs : List String),
    (∃ h ∈ hrefs, isMailtoHref h = true ∧ isValidEmail (mailtoAddr h) = true) →
    (firstMailtoEmail hrefs).isSome = true := by
  intro hrefs
  induction hrefs with
  | nil => intro h; simp at h
  | cons h0 hs ih =>
    intro hex
    rw [firstMailtoEmail, List.findSome?_cons]
    obtain ⟨x, hx, hm, hv⟩ := hex
    rcases List.mem_cons.mp hx with rfl | hx'
    · rw [if_pos hm, if_pos hv]
      rfl
    · by_cases hm0 : isMailtoHref h0 = true
      · rw [if_pos hm0]
        by_cases hv0 : isValidEmail (mailtoAddr h0) = true
        · rw [if_pos hv0]; rfl
        · rw [if_neg hv0]; exact ih ⟨x, hx', hm, hv⟩
      · rw [if_neg hm0]; exact ih ⟨x, hx', hm, hv⟩

/-- C6: whenever the document carries a mailto link with a valid address, the
enhanced email extractor ignores the page text entirely (so a mailto address
takes precedence over any pattern-scanned address) and returns a valid
address; concretely, a container with a `mailto:biology@bhsu.edu` link and a
different pattern-matchable address in its text yields the mailto address,
while without the link the pattern-scanned address would have been chosen. -/
theorem claim6_mailto_precedence :
    (∀ (hrefs : List String) (t1 t2 : String),
      (∃ h ∈ hrefs, isMailtoHref h = true ∧ isValidEmail (mailtoAddr h) = true) →
      extractEnhancedEmail hrefs t1 = extractEnhancedEmail hrefs t2 ∧
        isValidEmail (extractEnhancedEmail hrefs t1) = true) ∧
    extractEnhancedEmail ["mailto:biology@bhsu.edu"] "Biology Club other@bhsu.edu" =
      "biology@bhsu.edu" ∧
    extractEnhancedEmail [] "Biology Club other@bhsu.edu" = "other@bhsu.edu" := by
  refine ⟨?_, by decide, by decide⟩
  intro hrefs t1 t2 hex
  have hsome := firstMailtoEmail_isSome hrefs hex
  cases hf : firstMailtoEmail hrefs with
  | none => rw [hf] at hsome; simp at hsome
  | some e =>
    constructor
    · unfold extractEnhancedEmail
      rw [hf]
    · unfold extractEnhancedEmail
      rw [hf]
      exact firstMailtoEmail_valid hrefs e hf

/-- C6 witness: the precedence statement at a concrete link list. -/
theorem claim6_witness :
    extractEnhancedEmail ["mailto:chess@bhsu.edu"] "a@b.edu" =
      extractEnhancedEmail ["mailto:chess@bhsu.edu"] "c@d.edu" ∧
    isValidEmail (extractEnhancedEmail ["mailto:chess@bhsu.edu"] "a@b.edu") = true :=
  claim6_mailto_precedence.1 ["mailto:chess@bhsu.edu"] "a@b.edu" "c@d.edu"
    ⟨"mailto:chess@bhsu.edu", by decide, by decide, by decide⟩

/-- Every address surviving the prioritizing loop avoids the blacklist. -/
theorem emailFold_nonskip : ∀ (l acc : List String),
    (∀ e ∈ acc, isSkippedEmail e = false) →
    ∀ e ∈ l.foldl emailFold acc, isSkippedEmail e = false := by
  intro l
  induction l with
  | nil => intro acc hacc e he; exact hacc e he
  | cons x l ih =>
    intro acc hacc e he
    rw [List.foldl_cons] at he
    refine ih (emailFold acc x) ?_ e he
    intro q hq
    unfold emailFold at hq
    split at hq
    · exact hacc q hq
    · next hskip =>
      split at hq
      · rcases List.mem_cons.mp hq with rfl | hq'
        · exact Bool.not_eq_true _ ▸ Bool.of_not_eq_true hskip
        · exact hacc q hq'
      · rcases List.mem_append.mp hq with hq' | hq'
        · exact hacc q hq'
        · rw [List.mem_singleton.mp hq']
          exact Bool.of_not_eq_true hskip

/-- If the accumulator is non-empty with an organization-token head, the loop
keeps a non-empty result with an organization-token head. -/
theorem emailFold_keep_tok : ∀ (l acc : List String),
    acc ≠ [] → hasOrgToken (acc.headD "") = true →
    l.foldl emailFold acc ≠ [] ∧ hasOrgToken ((l.foldl emailFold acc).headD "") = true := by
  intro l
  induction l with
  | nil => intro acc h1 h2; exact ⟨h1, h2⟩
  | cons x l ih =>
    intro acc h1 h2
    rw [List.foldl_cons]
    unfold emailFold
    split
    · exact ih acc h1 h2
    · split
      · next htok => exact ih (x :: acc) (by simp) (by simpa using htok)
      · refine ih (acc ++ [x]) (by simp) ?_
        cases acc with
        | nil => exact absurd rfl h1
        | cons a as => simpa using h2

/-- If some match survives the blacklist and carries an organization token,
the loop result is non-empty and its head carries an organization token. -/
theorem emailFold_exists_tok : ∀ (l acc : List String),
    (∃ e ∈ l, isSkippedEmail e = false ∧ hasOrgToken e = true) →
    l.foldl emailFold acc ≠ [] ∧ hasOrgToken ((l.foldl emailFold acc).headD "") = true := by
  intro l
  induction l with
  | nil => intro acc h; obtain ⟨e, he, _⟩ := h; simp at he
  | cons x l ih =>
    intro acc hex
    obtain ⟨e, he, hp⟩ := hex
    rcases List.mem_cons.mp he with rfl | he'
    · rw [List.foldl_cons]
      unfold emailFold
      rw [if_neg (by simp [hp.1]), if_pos hp.2]
      by_cases hl : ∃ q ∈ l, isSkippedEmail q = false ∧ hasOrgToken q = true
      · exact ih (e :: acc) hl
      · exact emailFold_keep_tok l (e :: acc) (by simp) (by simpa using hp.2)
    · rw [List.foldl_cons]
      exact ih (emailFold acc x) ⟨e, he', hp⟩

/-- C7 amended: the extractor never returns a blacklisted address (blacklist
substrings as in the code: noreply, webmaster, admin@university,
support@university, info@example, checked against the whole address), and
whenever some non-blacklisted match contains an organization token anywhere in
the address, the returned address contains an organization token — promoted
matches are inserted at position 0, so among several promoted matches the
LAST-discovered one is returned, not the first. -/
theorem claim7_email_filter_promotion (text : String) :
    (extractEmailFromText text ≠ "" →
      isSkippedEmail (extractEmailFromText text) = false) ∧
    ((∃ e ∈ allEmailMatches text, isSkippedEmail e = false ∧ hasOrgToken e = true) →
      hasOrgToken (extractEmailFromText text) = true) := by
  constructor
  · intro hne
    unfold extractEmailFromText at hne ⊢
    cases hl : (allEmailMatches text).foldl emailFold [] with
    | nil => rw [hl] at hne; simp at hne
    | cons a as =>
      have := emailFold_nonskip (allEmailMatches text) [] (by simp) a (by rw [hl]; simp)
      simpa using this
  · intro hex
    have hres := emailFold_exists_tok (allEmailMatches text) [] hex
    unfold extractEmailFromText
    cases hl : (allEmailMatches text).foldl emailFold [] with
    | nil => exact absurd hl hres.1
    | cons a as =>
      rw [hl] at hres
      simpa using hres.2

/-- C7 witness: on a text whose only organization-token survivor is the second
match, the returned address is non-blacklisted and carries the token. -/
theorem claim7_witness :
    isSkippedEmail (extractEmailFromText "zeta@x.edu alpha@y.org") = false ∧
    hasOrgToken (extractEmailFromText "zeta@x.edu alpha@y.org") = true :=
  ⟨(claim7_email_filter_promotion "zeta@x.edu alpha@y.org").1 (by decide),
   (claim7_email_filter_promotion "zeta@x.edu alpha@y.org").2
     ⟨"alpha@y.org", by decide, by decide, by decide⟩⟩

/-- C7 counterexample: on `zeta@x.edu alpha@y.org` the claim-worded rule (no
local part carries a token, so discovery order stands) returns the first
address, but the code promotes `alpha@y.org` because the token `org` occurs in
its DOMAIN, and returns it instead — the two rules disagree. -/
theorem claim7_counterexample :
    specEmailExtract "zeta@x.edu alpha@y.org" = "zeta@x.edu" ∧
    extractEmailFromText "zeta@x.edu alpha@y.org" = "alpha@y.org" ∧
    specEmailExtract "zeta@x.edu alpha@y.org" ≠
      extractEmailFromText "zeta@x.edu alpha@y.org" := by
  decide

end Scraper
